import Mathlib

/-!
Shallow embedding of the `databases` package (encode/databases), covering the
parts of the code the specification claims talk about:

* `databases/backends/common/records.py` and the legacy record class in
  `databases/backends/postgres.py` (result-row wrapping and type decoding);
* `databases/core.py` (`Connection.__aenter__`/`__aexit__` reference counting,
  `Transaction.start`/`commit`/`rollback`/`__aexit__`/`__call__`,
  `Database.connect`/`disconnect`);
* `databases/interfaces.py` (`DatabaseTransaction.__aexit__`);
* `databases/backends/dialects/psycopg.py` (`compile_query`, the numeric
  `$N` placeholder pipeline shared with `PostgresConnection._compile`);
* the `execute` result logic of `databases/backends/sqlite.py`,
  `mysql.py`, `aiopg.py` and `asyncpg.py`;
* the `ssl` handling in `_get_connection_kwargs` of `postgres.py`,
  `asyncpg.py`, `mysql.py` and `aiopg.py`.

Python integers are modelled by `Int`, Python lists/dicts by `List`
(association lists for dicts, preserving insertion order), exceptions by
`Except`/`Option`, and awaited backend calls by events appended to an
explicit event trace.
-/

open scoped List

namespace Databases

/-- Python runtime values, as far as the record layer inspects them.
`isinstance(raw, (int, str, float))` only needs the coarse shape of the
value, so floats and driver-native decoded values (JSON documents, arrays,
decimals, `None`, ...) are represented by opaque tags. -/
inductive PyVal where
  | pint (n : Int)
  | pfloat (tag : Nat)
  | pstr (s : String)
  | pbool (b : Bool)
  | pnative (tag : Nat)
deriving DecidableEq, Repr

/-- `isinstance(raw, (int, str, float))` in `records.py` line 67.
A Python `bool` is a subclass of `int`, so it counts as primitive. -/
def PyVal.isPrimitive : PyVal → Bool
  | .pint _ => true
  | .pfloat _ => true
  | .pstr _ => true
  | .pbool _ => true
  | .pnative _ => false

/-- The Python exceptions that appear on the paths modelled here. -/
inductive PyErr where
  | keyError (msg : String)
  | indexError
  | attributeError (msg : String)
  | typeError
  | valueError
deriving DecidableEq, Repr

/-- Decidable equality for `Except` results with decidable components. -/
instance {ε α : Type} [DecidableEq ε] [DecidableEq α] : DecidableEq (Except ε α) :=
  fun x y =>
    match x, y with
    | .ok a, .ok b =>
      match decEq a b with
      | isTrue h => isTrue (by rw [h])
      | isFalse h => isFalse (fun hx => h (Except.ok.inj hx))
    | .error a, .error b =>
      match decEq a b with
      | isTrue h => isTrue (by rw [h])
      | isFalse h => isFalse (fun hx => h (Except.error.inj hx))
    | .ok _, .error _ => isFalse (fun hx => Except.noConfusion hx)
    | .error _, .ok _ => isFalse (fun hx => Except.noConfusion hx)

/-- A SQLAlchemy `TypeEngine` as the record layer uses it: the only thing
read from it is `_cached_result_processor(dialect, None)` (respectively
`result_processor(dialect, None)` memoised in `_result_processors` in the
legacy `postgres.py`), which yields an optional decoding function. -/
structure TypeEngine where
  resultProcessor : Option (PyVal → PyVal)

/-- A key passed to `Record.__getitem__`: a string name, an integer index,
or a SQLAlchemy `Column` object (identified by its `str(...)` rendering,
which is all the code uses of it). -/
inductive RKey where
  | name (s : String)
  | idx (i : Nat)
  | col (s : String)
deriving DecidableEq, Repr

/-- `DIALECT_EXCLUDE = {"postgresql"}` in `records.py` line 14. -/
def DIALECT_EXCLUDE : List String := ["postgresql"]

/-- The state of a `databases.backends.common.records.Record`:
the raw driver row (positional values plus the row's own key view) and the
three column maps built by `create_column_maps`, plus the dialect name. -/
structure RecordModel where
  row : List PyVal
  rowKeys : List String
  columnMap : List (String × Nat × TypeEngine)
  columnMapInt : List (Nat × Nat × TypeEngine)
  columnMapFull : List (String × Nat × TypeEngine)
  dialectName : String

/-- The raw-row branch `return self._row[key]` of `Record.__getitem__`
(`records.py` line 55): the driver row supports integer indexing
(IndexError when out of range) and string keys (KeyError when absent);
any other key type is a TypeError. -/
def rawRowGet (rcd : RecordModel) : RKey → Except PyErr PyVal
  | .idx i =>
    match rcd.row.get? i with
    | some v => .ok v
    | none => .error .indexError
  | .name s =>
    match rcd.rowKeys.findIdx? (fun k => k == s) with
    | some i =>
      match rcd.row.get? i with
      | some v => .ok v
      | none => .error .indexError
    | none => .error (.keyError s)
  | .col _ => .error .typeError

/-- The `elif` chain of `Record.__getitem__` (`records.py` lines 56-61):
`Column` objects resolve through `_column_map_full[str(key)]`, integers
through `_column_map_int[key]`, everything else through `_column_map[key]`.
A missing dict key is a `KeyError`. -/
def commonResolve (rcd : RecordModel) : RKey → Except PyErr (Nat × TypeEngine)
  | .col s =>
    match List.lookup s rcd.columnMapFull with
    | some e => .ok e
    | none => .error (.keyError s)
  | .idx i =>
    match List.lookup i rcd.columnMapInt with
    | some e => .ok e
    | none => .error (.keyError (toString i))
  | .name s =>
    match List.lookup s rcd.columnMap with
    | some e => .ok e
    | none => .error (.keyError s)

/-- `Record.__getitem__` of `records.py` lines 53-70: raw passthrough when
`_column_map` is empty; otherwise resolve `(idx, datatype)`, fetch
`raw = self._row[idx]`, and apply the cached result processor only when
the dialect is in `DIALECT_EXCLUDE` and `raw` is an int/str/float. -/
def commonGetItem (rcd : RecordModel) (key : RKey) : Except PyErr PyVal :=
  if rcd.columnMap.length = 0 then
    rawRowGet rcd key
  else
    match commonResolve rcd key with
    | .error e => .error e
    | .ok (idx, datatype) =>
      match rcd.row.get? idx with
      | none => .error .indexError
      | some raw =>
        if rcd.dialectName ∈ DIALECT_EXCLUDE then
          match datatype.resultProcessor with
          | some processor =>
            if raw.isPrimitive then .ok (processor raw) else .ok raw
          | none => .ok raw
        else
          .ok raw

/-- `Record.__getattr__` of `records.py` lines 78-82: delegate to
`__getitem__` and convert a `KeyError` into an `AttributeError` carrying
the same argument. -/
def commonGetAttr (rcd : RecordModel) (name : String) : Except PyErr PyVal :=
  match commonGetItem rcd (.name name) with
  | .error (.keyError m) => .error (.attributeError m)
  | r => r

/-- The state of the legacy `databases.backends.postgres.Record`
(postgres.py lines 76-124); same maps, no dialect-name field because that
class applies processors unconditionally. -/
structure PGRecordModel where
  row : List PyVal
  rowKeys : List String
  columnMap : List (String × Nat × TypeEngine)
  columnMapInt : List (Nat × Nat × TypeEngine)
  columnMapFull : List (String × Nat × TypeEngine)

/-- Key resolution of the legacy `postgres.py` `Record.__getitem__`
(lines 103-108), identical branch structure to the common record. -/
def pgResolve (rcd : PGRecordModel) : RKey → Except PyErr (Nat × TypeEngine)
  | .col s =>
    match List.lookup s rcd.columnMapFull with
    | some e => .ok e
    | none => .error (.keyError s)
  | .idx i =>
    match List.lookup i rcd.columnMapInt with
    | some e => .ok e
    | none => .error (.keyError (toString i))
  | .name s =>
    match List.lookup s rcd.columnMap with
    | some e => .ok e
    | none => .error (.keyError s)

/-- The legacy `postgres.py` `Record.__getitem__` (lines 100-118): the raw
branch indexes `self._row[tuple(self._row.keys()).index(key)]` (a
`ValueError` when the name is absent), and the processor, when present,
is applied unconditionally to `raw`. -/
def pgRecordGetItem (rcd : PGRecordModel) (key : RKey) : Except PyErr PyVal :=
  if rcd.columnMap.length = 0 then
    match key with
    | .name s =>
      match rcd.rowKeys.findIdx? (fun k => k == s) with
      | some i =>
        match rcd.row.get? i with
        | some v => .ok v
        | none => .error .indexError
      | none => .error .valueError
    | _ => .error .typeError
  else
    match pgResolve rcd key with
    | .error e => .error e
    | .ok (idx, datatype) =>
      match rcd.row.get? idx with
      | none => .error .indexError
      | some raw =>
        match datatype.resultProcessor with
        | some processor => .ok (processor raw)
        | none => .ok raw

/-- The result-decoding rule exactly as the specification words it
("obtain the cached result-processor for `datatype`, apply it if present,
else return raw. Special rule: for native-typed drivers (PostgreSQL
family) the processor is only applied when `raw` is a primitive"). Stated
for refinement comparison against `commonGetItem`; it is *not* translated
from the source. -/
def specResultValue (dialectName : String) (processor : Option (PyVal → PyVal))
    (raw : PyVal) : PyVal :=
  match processor with
  | none => raw
  | some p =>
    if dialectName ∈ DIALECT_EXCLUDE then
      if raw.isPrimitive then p raw else raw
    else
      p raw

/-- Awaited backend calls made by `databases/core.py`, recorded as an event
trace: `Connection.acquire`/`release` on the backend connection, and
`TransactionBackend.start(is_root)`/`commit`/`rollback`.  Transactions are
identified by a numeric object identity. -/
inductive BEvent where
  | acquire
  | release
  | begin (id : Nat) (isRoot : Bool)
  | commit (id : Nat)
  | rollback (id : Nat)
deriving DecidableEq, Repr

/-- The mutable state of a `databases.core.Connection` together with the
backend-visible effects: `_connection_counter` (a Python int), whether the
raw backend connection is currently held (acquired and not yet released),
the `_transaction_stack` (Python appends/pops at the end, so the last
element is the top), and the trace of backend calls. -/
structure ConnState where
  counter : Int
  held : Bool
  stack : List Nat
  events : List BEvent
deriving DecidableEq, Repr

/-- A freshly constructed `Connection`. -/
def ConnState.init : ConnState := ⟨0, false, [], []⟩

/-- `Connection.__aenter__` (core.py lines 140-145): increment the counter
and call `self._connection.acquire()` exactly when it becomes 1. -/
def connEnter (s : ConnState) : ConnState :=
  if s.counter + 1 = 1 then
    { s with counter := s.counter + 1, held := true, events := s.events ++ [.acquire] }
  else
    { s with counter := s.counter + 1 }

/-- `Connection.__aexit__` (core.py lines 147-157): decrement the counter
and call `self._connection.release()` exactly when it reaches 0. -/
def connExit (s : ConnState) : ConnState :=
  if s.counter - 1 = 0 then
    { s with counter := s.counter - 1, held := false, events := s.events ++ [.release] }
  else
    { s with counter := s.counter - 1 }

/-- `Transaction.start` (core.py lines 226-232): compute
`is_root = not stack`, enter the connection, start the backend transaction
with that flag, then append self to the stack. -/
def txStart (t : Nat) (s : ConnState) : ConnState :=
  let isRoot := s.stack.isEmpty
  let s1 := connEnter s
  let s2 := { s1 with events := s1.events ++ [BEvent.begin t isRoot] }
  { s2 with stack := s2.stack ++ [t] }

/-- `Transaction.commit` (core.py lines 234-239): assert that self is the
top of the stack (`stack[-1] is self`; an empty stack or a different top
is a failure), pop, commit the backend transaction, then exit the
connection.  A failed assertion is `none`. -/
def txCommit (t : Nat) (s : ConnState) : Option ConnState :=
  if s.stack.getLast? = some t then
    some (connExit { s with stack := s.stack.dropLast, events := s.events ++ [.commit t] })
  else
    none

/-- `Transaction.rollback` (core.py lines 241-246), symmetric to commit. -/
def txRollback (t : Nat) (s : ConnState) : Option ConnState :=
  if s.stack.getLast? = some t then
    some (connExit { s with stack := s.stack.dropLast, events := s.events ++ [.rollback t] })
  else
    none

/-- The two operations of the exit decision in `Transaction.__aexit__`. -/
inductive ExitAction where
  | commit
  | rollback
deriving DecidableEq, Repr

/-- The branch of `Transaction.__aexit__` (core.py lines 194-206):
`if exc_type is not None or self._force_rollback: rollback else commit`. -/
def aexitAction (excType : Option String) (forceRollback : Bool) : ExitAction :=
  if excType.isSome || forceRollback then .rollback else .commit

/-- The identical branch of `DatabaseTransaction.__aexit__` in
`databases/interfaces.py` lines 50-59. -/
def aexitActionInterfaces (excType : Option String) (forceRollback : Bool) : ExitAction :=
  if excType.isSome || forceRollback then .rollback else .commit

/-- `Transaction.__aexit__` applied to the connection state: dispatch to
`rollback()` or `commit()` according to the exit rule. -/
def txAexit (t : Nat) (forceRollback : Bool) (excType : Option String)
    (s : ConnState) : Option ConnState :=
  match aexitAction excType forceRollback with
  | .rollback => txRollback t s
  | .commit => txCommit t s

/-- The transaction entered by one invocation of the wrapper built by
`Transaction.__call__` (core.py lines 214-224).  The wrapper body is
`async with self: return await func(*args, **kwargs)`: it closes over the
one decorating `Transaction` object, so the transaction entered does not
depend on the invocation. -/
def wrapperTransactionEntered (selfId : Nat) (_invocation : Nat) : Nat :=
  selfId

/-- One complete invocation of the decorator wrapper on connection state
`s`: `__aenter__` (= `start`) of the captured `self`, the user callable
(which either returns or raises `excType`), then `__aexit__`. -/
def wrapperInvoke (selfId : Nat) (forceRollback : Bool) (excType : Option String)
    (s : ConnState) : Option ConnState :=
  txAexit selfId forceRollback excType (txStart selfId s)

/-- The enter/exit alphabet of `Connection.__aenter__`/`__aexit__`. -/
inductive ConnOp where
  | enter
  | exit
deriving DecidableEq, Repr

/-- Run a sequence of `__aenter__`/`__aexit__` calls. -/
def runConn (s : ConnState) : List ConnOp → ConnState
  | [] => s
  | .enter :: rest => runConn (connEnter s) rest
  | .exit :: rest => runConn (connExit s) rest

/-- A sequence of enter/exit calls is balanced from counter value `c` when
no prefix drives the counter below zero: every `exit` is matched by an
earlier unmatched `enter`. -/
def balancedFrom (c : Int) : List ConnOp → Bool
  | [] => true
  | .enter :: rest => balancedFrom (c + 1) rest
  | .exit :: rest => decide (0 < c) && balancedFrom (c - 1) rest

/-- The reference-count invariant of a facade connection: the counter is
nonnegative and is zero exactly when the raw backend connection is not
held. -/
def ConnInv (s : ConnState) : Prop :=
  0 ≤ s.counter ∧ (s.counter = 0 ↔ s.held = false)

/-- Backend-visible effects of `Database.connect`/`disconnect`. -/
inductive DbEvent where
  | backendConnect
  | backendDisconnect
  | globalBegin
  | globalRollback
deriving DecidableEq, Repr

/-- The state of a `databases.core.Database`: the `force_rollback` mode
chosen at construction, the `is_connected` flag, whether the backend pool
is running, and the trace of backend calls. -/
structure DbState where
  forceRollback : Bool
  isConnected : Bool
  poolRunning : Bool
  events : List DbEvent
deriving DecidableEq, Repr

/-- A freshly constructed `Database(url, force_rollback=...)`. -/
def dbInit (forceRollback : Bool) : DbState :=
  ⟨forceRollback, false, false, []⟩

/-- `Database.connect` (core.py lines 53-64): `assert not self.is_connected,
"Already connected."`; then `backend.connect()`, set `is_connected`, and in
force-rollback mode enter the global outer transaction. -/
def dbConnect (s : DbState) : Except String DbState :=
  if s.isConnected then
    .error "Already connected."
  else
    let s1 := { s with
      poolRunning := true
      events := s.events ++ [DbEvent.backendConnect]
      isConnected := true }
    if s1.forceRollback then
      .ok { s1 with events := s1.events ++ [DbEvent.globalBegin] }
    else
      .ok s1

/-- `Database.disconnect` (core.py lines 66-77): `assert self.is_connected,
"Already disconnected."`; in force-rollback mode exit (roll back) the
global transaction; then `backend.disconnect()` and clear `is_connected`. -/
def dbDisconnect (s : DbState) : Except String DbState :=
  if s.isConnected then
    let s1 :=
      if s.forceRollback then { s with events := s.events ++ [DbEvent.globalRollback] }
      else s
    .ok { s1 with
      poolRunning := false
      events := s1.events ++ [DbEvent.backendDisconnect]
      isConnected := false }
  else
    .error "Already disconnected."

/-- The cursor attributes the `execute` implementations read after running
an insert-style statement. -/
structure Cursor where
  lastrowid : Int
  rowcount : Int
deriving DecidableEq, Repr

/-- `SQLiteConnection.execute` result logic (sqlite.py lines 111-121):
`if cursor.lastrowid == 0: return cursor.rowcount; return cursor.lastrowid`. -/
def sqliteExecute (cur : Cursor) : Int :=
  if cur.lastrowid = 0 then cur.rowcount else cur.lastrowid

/-- `MySQLConnection.execute` result logic (mysql.py lines 156-166),
identical to the SQLite branch. -/
def mysqlExecute (cur : Cursor) : Int :=
  if cur.lastrowid = 0 then cur.rowcount else cur.lastrowid

/-- `AiopgConnection.execute` result logic (aiopg.py lines 167-175):
`return cursor.lastrowid` unconditionally. -/
def aiopgExecute (cur : Cursor) : Int :=
  cur.lastrowid

/-- The asyncpg driver's `Connection.fetchval`: the first column of the
first result row, `None` (here `none`) when there is no row. -/
def asyncpgFetchval (rows : List (List PyVal)) : Option PyVal :=
  rows.head?.bind List.head?

/-- `AsyncpgConnection.execute` (asyncpg.py lines 124-127): compile and
`return await self._connection.fetchval(query_str, *args)` — the value of
the statement's RETURNING clause, obtained via the driver's `fetchval`. -/
def asyncpgExecute (rows : List (List PyVal)) : Option PyVal :=
  asyncpgFetchval rows

/-- Values placed into the pool-connection kwargs. -/
inductive KwVal where
  | kbool (b : Bool)
  | kstr (s : String)
  | kint (n : Int)
deriving DecidableEq, Repr

/-- Python's `str.lower()` restricted to the relevant ASCII alphabet:
lower-case every character. -/
def strLower (s : String) : String :=
  String.mk (s.data.map Char.toLower)

/-- The `ssl` branch of `PostgresBackend._get_connection_kwargs`
(postgres.py line 56): `{"true": True, "false": False}[ssl.lower()]` — a
plain dict indexing, so any other string raises `KeyError`. -/
def postgresSslKwarg (ssl : String) : Except PyErr KwVal :=
  match strLower ssl with
  | "true" => .ok (.kbool true)
  | "false" => .ok (.kbool false)
  | other => .error (.keyError other)

/-- The `ssl` branch of `MySQLBackend._get_connection_kwargs`
(mysql.py line 52), same strict dict indexing. -/
def mysqlSslKwarg (ssl : String) : Except PyErr KwVal :=
  match strLower ssl with
  | "true" => .ok (.kbool true)
  | "false" => .ok (.kbool false)
  | other => .error (.keyError other)

/-- The `ssl` branch of `AiopgBackend._get_connection_kwargs`
(aiopg.py line 65), same strict dict indexing. -/
def aiopgSslKwarg (ssl : String) : Except PyErr KwVal :=
  match strLower ssl with
  | "true" => .ok (.kbool true)
  | "false" => .ok (.kbool false)
  | other => .error (.keyError other)

/-- The `ssl` branch of `AsyncpgBackend._get_connection_kwargs`
(asyncpg.py lines 42-44): `ssl = ssl.lower()` then
`{"true": True, "false": False}.get(ssl, ssl)` — unknown strings are
passed through (in lowered form) instead of rejected. -/
def asyncpgSslKwarg (ssl : String) : KwVal :=
  match strLower ssl with
  | "true" => .kbool true
  | "false" => .kbool false
  | other => .kstr other

/-- A piece of `compiled.string`: literal SQL text or a `%(key)s` parameter
slot that the `compiled.string % mapping` substitution fills in. -/
inductive Tok where
  | lit (s : String)
  | param (k : String)
deriving DecidableEq, Repr

/-- A piece of the emitted SQL after substitution: literal text or a
numeric `$i` placeholder. -/
inductive SqlTok where
  | lit (s : String)
  | dollar (i : Nat)
deriving DecidableEq, Repr

/-- Flatten an emitted token back to its SQL text. -/
def SqlTok.render : SqlTok → String
  | .lit s => s
  | .dollar i => "$" ++ toString i

/-- The emitted SQL text. -/
def sqlString (ts : List SqlTok) : String :=
  String.join (ts.map SqlTok.render)

/-- The compiled AST object as `compile_query` consumes it
(`dialects/psycopg.py` lines 61-87): the compiled string (as a token
template), `compiled.params` (a dict, insertion-ordered) and
`compiled._bind_processors`. -/
structure CompiledQuery (V : Type) where
  template : List Tok
  params : List (String × V)
  bindProcessors : List (String × (V → V))

/-- The key order `fun a b => a.1 ≤ b.1` used to sort parameter items; a
Python dict has unique keys, so `sorted(compiled.params.items())` compares
only the keys. -/
instance (V : Type) : DecidableRel (fun (a b : String × V) => a.1 ≤ b.1) :=
  fun a b => inferInstanceAs (Decidable (a.1 ≤ b.1))

instance (V : Type) : IsTotal (String × V) (fun a b => a.1 ≤ b.1) :=
  ⟨fun a b => le_total a.1 b.1⟩

instance (V : Type) : IsTrans (String × V) (fun a b => a.1 ≤ b.1) :=
  ⟨fun _ _ _ h1 h2 => le_trans h1 h2⟩

/-- `compiled_params = sorted(compiled.params.items())` — a stable sort of
the parameter items by key. -/
def sortedParams {V : Type} (c : CompiledQuery V) : List (String × V) :=
  List.insertionSort (fun a b => a.1 ≤ b.1) c.params

/-- The dict comprehension
`mapping = {key: "$" + str(i) for i, (key, _) in enumerate(compiled_params, start=1)}`:
the placeholder number of `k` is its 1-based position in the sorted items. -/
def placeholderIndex {V : Type} (sp : List (String × V)) (k : String) : Option Nat :=
  (sp.findIdx? (fun p => p.1 == k)).map (fun i => i + 1)

/-- `compiled.string % mapping`: substitute every `%(key)s` slot by the
key's placeholder, raising `KeyError` for a key absent from the mapping. -/
def substTemplate {V : Type} (sp : List (String × V)) :
    List Tok → Except PyErr (List SqlTok)
  | [] => .ok []
  | .lit s :: rest =>
    match substTemplate sp rest with
    | .ok ts => .ok (.lit s :: ts)
    | .error e => .error e
  | .param k :: rest =>
    match placeholderIndex sp k with
    | some i =>
      match substTemplate sp rest with
      | .ok ts => .ok (.dollar i :: ts)
      | .error e => .error e
    | none => .error (.keyError k)

/-- `processors[key](val) if key in processors else val`. -/
def applyBindProcessor {V : Type} (procs : List (String × (V → V)))
    (k : String) (v : V) : V :=
  match List.lookup k procs with
  | some f => f v
  | none => v

/-- The emitted `args` list: the sorted parameter values, each passed
through its bind processor when one exists. -/
def compileArgs {V : Type} (c : CompiledQuery V) : List V :=
  (sortedParams c).map (fun p => applyBindProcessor c.bindProcessors p.1 p.2)

/-- `compiled.string` before substitution, for the DDL branch. -/
def rawTemplateString (template : List Tok) : String :=
  String.join (template.map (fun t =>
    match t with
    | .lit s => s
    | .param k => "%(" ++ k ++ ")s"))

/-- `compile_query` of `dialects/psycopg.py` lines 61-87 (the result-map
component is dropped; it is independent of the claim): DDL statements are
emitted verbatim with empty args, otherwise the sorted, substituted,
bind-processed form is emitted. -/
def compile_query {V : Type} (c : CompiledQuery V) (isDDL : Bool) :
    Except PyErr (List SqlTok × List V) :=
  if isDDL then
    .ok ([.lit (rawTemplateString c.template)], [])
  else
    match substTemplate (sortedParams c) c.template with
    | .ok ts => .ok (ts, compileArgs c)
    | .error e => .error e

/-- The parameter keys mentioned by the template, in order of occurrence. -/
def templateParamKeys (template : List Tok) : List String :=
  template.filterMap (fun t =>
    match t with
    | .param k => some k
    | .lit _ => none)

/-- The numeric placeholders appearing in the emitted SQL, in order. -/
def dollarsOf (ts : List SqlTok) : List Nat :=
  ts.filterMap (fun t =>
    match t with
    | .dollar i => some i
    | .lit _ => none)

/-- A result processor that decodes to a fixed value, so that applying it
is observable. -/
def exProcessor : PyVal → PyVal := fun _ => PyVal.pint 99

/-- A column datatype whose cached result processor is `exProcessor`. -/
def exTypeProc : TypeEngine := ⟨some exProcessor⟩

/-- A one-column common record under the `mysql` dialect whose datatype
has a result processor. -/
def exRecordMySQL : RecordModel :=
  { row := [.pint 1]
    rowKeys := ["a"]
    columnMap := [("a", 0, exTypeProc)]
    columnMapInt := [(0, 0, exTypeProc)]
    columnMapFull := [("notes.a", 0, exTypeProc)]
    dialectName := "mysql" }

/-- A two-column common record under the `postgresql` dialect: column "a"
holds a primitive, column "j" holds a native-decoded (non-primitive)
value. -/
def exRecordPG : RecordModel :=
  { row := [.pint 2, .pnative 0]
    rowKeys := ["a", "j"]
    columnMap := [("a", 0, exTypeProc), ("j", 1, exTypeProc)]
    columnMapInt := [(0, 0, exTypeProc), (1, 1, exTypeProc)]
    columnMapFull := [("notes.a", 0, exTypeProc), ("notes.j", 1, exTypeProc)]
    dialectName := "postgresql" }

/-- The compiled form of
`notes.insert().values(text=..., completed=...)` with two parameters given
in non-alphabetical insertion order and one bind processor. -/
def exCompiled : CompiledQuery Int :=
  { template := [Tok.lit "INSERT INTO notes (text, completed) VALUES (",
      Tok.param "text", Tok.lit ", ", Tok.param "completed", Tok.lit ")"]
    params := [("text", 7), ("completed", 1)]
    bindProcessors := [("completed", fun v => v * 2)] }

/-! ## Helper lemmas about the connection state machine -/

lemma connEnter_counter (s : ConnState) : (connEnter s).counter = s.counter + 1 := by
  unfold connEnter; split <;> rfl

lemma connEnter_stack (s : ConnState) : (connEnter s).stack = s.stack := by
  unfold connEnter; split <;> rfl

lemma connEnter_events (s : ConnState) :
    (connEnter s).events = s.events ++ (if s.counter = 0 then [BEvent.acquire] else []) := by
  unfold connEnter
  by_cases h : s.counter + 1 = 1
  · have h0 : s.counter = 0 := by omega
    simp [h, h0]
  · have h0 : ¬s.counter = 0 := by omega
    simp [h, h0]

lemma connEnter_held (s : ConnState) :
    (connEnter s).held = (if s.counter = 0 then true else s.held) := by
  unfold connEnter
  by_cases h : s.counter + 1 = 1
  · have h0 : s.counter = 0 := by omega
    simp [h, h0]
  · have h0 : ¬s.counter = 0 := by omega
    simp [h, h0]

lemma connExit_counter (s : ConnState) : (connExit s).counter = s.counter - 1 := by
  unfold connExit; split <;> rfl

lemma connExit_stack (s : ConnState) : (connExit s).stack = s.stack := by
  unfold connExit; split <;> rfl

lemma connExit_events (s : ConnState) :
    (connExit s).events = s.events ++ (if s.counter = 1 then [BEvent.release] else []) := by
  unfold connExit
  by_cases h : s.counter - 1 = 0
  · have h0 : s.counter = 1 := by omega
    simp [h, h0]
  · have h0 : ¬s.counter = 1 := by omega
    simp [h, h0]

lemma connExit_held (s : ConnState) :
    (connExit s).held = (if s.counter = 1 then false else s.held) := by
  unfold connExit
  by_cases h : s.counter - 1 = 0
  · have h0 : s.counter = 1 := by omega
    simp [h, h0]
  · have h0 : ¬s.counter = 1 := by omega
    simp [h, h0]

lemma txStart_stack (t : Nat) (s : ConnState) : (txStart t s).stack = s.stack ++ [t] := by
  simp [txStart, connEnter_stack]

lemma txStart_counter (t : Nat) (s : ConnState) :
    (txStart t s).counter = s.counter + 1 := by
  simp [txStart, connEnter_counter]

lemma txStart_events (t : Nat) (s : ConnState) :
    (txStart t s).events =
      s.events ++ (if s.counter = 0 then [BEvent.acquire] else [])
        ++ [BEvent.begin t s.stack.isEmpty] := by
  simp [txStart, connEnter_events]

lemma txCommit_of_not_top (t : Nat) (s : ConnState)
    (h : s.stack.getLast? ≠ some t) : txCommit t s = none := by
  simp [txCommit, h]

lemma txCommit_of_top (t : Nat) (s : ConnState) (h : s.stack.getLast? = some t) :
    txCommit t s =
      some (connExit
        { s with stack := s.stack.dropLast, events := s.events ++ [BEvent.commit t] }) := by
  simp [txCommit, h]

lemma txRollback_of_not_top (t : Nat) (s : ConnState)
    (h : s.stack.getLast? ≠ some t) : txRollback t s = none := by
  simp [txRollback, h]

lemma txRollback_of_top (t : Nat) (s : ConnState) (h : s.stack.getLast? = some t) :
    txRollback t s =
      some (connExit
        { s with stack := s.stack.dropLast, events := s.events ++ [BEvent.rollback t] }) := by
  simp [txRollback, h]

lemma connInv_enter (s : ConnState) (h : ConnInv s) : ConnInv (connEnter s) := by
  obtain ⟨h0, hiff⟩ := h
  have hheld : s.counter ≠ 0 → s.held = true := by
    intro hc
    cases hb : s.held
    · exact absurd (hiff.mpr hb) hc
    · rfl
  constructor
  · rw [connEnter_counter]; omega
  · rw [connEnter_counter, connEnter_held]
    by_cases hc : s.counter = 0
    · constructor
      · intro hx; omega
      · intro hx; rw [if_pos hc] at hx; cases hx
    · constructor
      · intro hx; omega
      · intro hx; rw [if_neg hc, hheld hc] at hx; cases hx

lemma connInv_exit (s : ConnState) (h : ConnInv s) (hpos : 0 < s.counter) :
    ConnInv (connExit s) := by
  obtain ⟨h0, hiff⟩ := h
  have hheld : s.held = true := by
    cases hb : s.held
    · have := hiff.mpr hb; omega
    · rfl
  constructor
  · rw [connExit_counter]; omega
  · rw [connExit_counter, connExit_held]
    by_cases hc : s.counter = 1
    · simp [hc]
    · constructor
      · intro hx; omega
      · intro hx; rw [if_neg hc, hheld] at hx; cases hx

lemma balancedFrom_of_append (p : List ConnOp) :
    ∀ (c : Int) (q : List ConnOp), balancedFrom c (p ++ q) = true →
      balancedFrom c p = true := by
  induction p with
  | nil => intro c q _; rfl
  | cons op rest ih =>
    intro c q h
    cases op with
    | enter =>
      simp only [List.cons_append, balancedFrom] at h ⊢
      exact ih _ _ h
    | exit =>
      simp only [List.cons_append, balancedFrom, Bool.and_eq_true] at h ⊢
      exact ⟨h.1, ih _ _ h.2⟩

lemma connInv_runConn (l : List ConnOp) :
    ∀ (s : ConnState), ConnInv s → balancedFrom s.counter l = true →
      ConnInv (runConn s l) := by
  induction l with
  | nil => intro s h _; exact h
  | cons op rest ih =>
    intro s h hb
    cases op with
    | enter =>
      simp only [balancedFrom] at hb
      have h1 : ConnInv (connEnter s) := connInv_enter s h
      have h2 : balancedFrom (connEnter s).counter rest = true := by
        rw [connEnter_counter]; exact hb
      exact ih _ h1 h2
    | exit =>
      simp only [balancedFrom, Bool.and_eq_true, decide_eq_true_eq] at hb
      have h1 : ConnInv (connExit s) := connInv_exit s h hb.1
      have h2 : balancedFrom (connExit s).counter rest = true := by
        rw [connExit_counter]; exact hb.2
      exact ih _ h1 h2

/-! ## Claim theorems: transaction and connection lifecycle -/

/-- C1: for every facade transaction on a facade connection, `start`
acquires the connection (counter +1), records the backend start with
`is_root` true iff the stack was empty, and pushes the frame at the end of
the stack; `commit`/`rollback` fail (assertion) on any frame that is not
the top, and on the top frame they pop it, emit exactly one backend
commit/rollback, and exit the connection exactly once (counter -1,
backend release exactly when the counter reaches 0).  Hence the stack of
open transactions is strictly LIFO. -/
theorem transaction_stack_lifo (s : ConnState) (t : Nat) :
    ((txStart t s).stack = s.stack ++ [t]
      ∧ (txStart t s).counter = s.counter + 1
      ∧ (txStart t s).events =
          s.events ++ (if s.counter = 0 then [BEvent.acquire] else [])
            ++ [BEvent.begin t s.stack.isEmpty]
      ∧ (s.stack.isEmpty = true ↔ s.stack = []))
    ∧ (∀ t2, s.stack.getLast? ≠ some t2 → txCommit t2 s = none ∧ txRollback t2 s = none)
    ∧ (s.stack.getLast? = some t →
        ∃ s2, txCommit t s = some s2
          ∧ s2.stack = s.stack.dropLast
          ∧ s2.counter = s.counter - 1
          ∧ s2.events.count (BEvent.commit t) = s.events.count (BEvent.commit t) + 1
          ∧ s2.events.count BEvent.release =
              s.events.count BEvent.release + (if s.counter - 1 = 0 then 1 else 0))
    ∧ (s.stack.getLast? = some t →
        ∃ s2, txRollback t s = some s2
          ∧ s2.stack = s.stack.dropLast
          ∧ s2.counter = s.counter - 1
          ∧ s2.events.count (BEvent.rollback t) = s.events.count (BEvent.rollback t) + 1
          ∧ s2.events.count BEvent.release =
              s.events.count BEvent.release + (if s.counter - 1 = 0 then 1 else 0)) := by
  refine ⟨⟨txStart_stack t s, txStart_counter t s, txStart_events t s, List.isEmpty_iff⟩,
    ?_, ?_, ?_⟩
  · intro t2 h
    exact ⟨txCommit_of_not_top t2 s h, txRollback_of_not_top t2 s h⟩
  · intro h
    refine ⟨_, txCommit_of_top t s h, ?_, ?_, ?_, ?_⟩
    · rw [connExit_stack]
    · rw [connExit_counter]
    · rw [connExit_events]
      simp only [List.count_append]
      by_cases hc : s.counter - 1 = 0
      · have h1 : s.counter = 1 := by omega
        simp [h1, List.count_cons]
      · have h1 : ¬s.counter = 1 := by omega
        simp [h1, List.count_cons]
    · rw [connExit_events]
      simp only [List.count_append]
      by_cases hc : s.counter - 1 = 0
      · have h1 : s.counter = 1 := by omega
        simp [h1, hc, List.count_cons]
      · have h1 : ¬s.counter = 1 := by omega
        simp [h1, hc, List.count_cons]
  · intro h
    refine ⟨_, txRollback_of_top t s h, ?_, ?_, ?_, ?_⟩
    · rw [connExit_stack]
    · rw [connExit_counter]
    · rw [connExit_events]
      simp only [List.count_append]
      by_cases hc : s.counter - 1 = 0
      · have h1 : s.counter = 1 := by omega
        simp [h1, List.count_cons]
      · have h1 : ¬s.counter = 1 := by omega
        simp [h1, List.count_cons]
    · rw [connExit_events]
      simp only [List.count_append]
      by_cases hc : s.counter - 1 = 0
      · have h1 : s.counter = 1 := by omega
        simp [h1, hc, List.count_cons]
      · have h1 : ¬s.counter = 1 := by omega
        simp [h1, hc, List.count_cons]

/-- Witness for `transaction_stack_lifo`: one open root transaction on a
held connection, committed. -/
theorem transaction_stack_lifo_witness :
    ∃ s2, txCommit 5 ⟨1, true, [5], [BEvent.acquire, BEvent.begin 5 true]⟩ = some s2
      ∧ s2.stack = [] ∧ s2.counter = 0
      ∧ s2.events.count BEvent.release = 1 := by
  obtain ⟨s2, h1, h2, h3, _, h5⟩ :=
    (transaction_stack_lifo ⟨1, true, [5], [BEvent.acquire, BEvent.begin 5 true]⟩ 5).2.2.1
      (by decide)
  refine ⟨s2, h1, h2, h3, ?_⟩
  rw [h5]; decide

/-- C2: for every scoped use of a facade transaction, the exit path
commits exactly when the block completed without exception and
`force_rollback` is false, and rolls back when the block raised or
`force_rollback` is true; the `DatabaseTransaction.__aexit__` of
`interfaces.py` implements the same rule. -/
theorem transaction_scoped_exit (t : Nat) (forceRollback : Bool)
    (excType : Option String) (s : ConnState) :
    (excType = none ∧ forceRollback = false →
      aexitAction excType forceRollback = .commit
        ∧ txAexit t forceRollback excType s = txCommit t s)
    ∧ (excType ≠ none ∨ forceRollback = true →
      aexitAction excType forceRollback = .rollback
        ∧ txAexit t forceRollback excType s = txRollback t s)
    ∧ aexitActionInterfaces excType forceRollback = aexitAction excType forceRollback := by
  refine ⟨?_, ?_, rfl⟩
  · rintro ⟨he, hf⟩
    subst he; subst hf
    exact ⟨rfl, rfl⟩
  · intro h
    have hb : (excType.isSome || forceRollback) = true := by
      rcases h with h | h
      · cases excType with
        | none => exact absurd rfl h
        | some v => simp
      · simp [h]
    constructor
    · simp [aexitAction, hb]
    · simp [txAexit, aexitAction, hb]

/-- Witness for `transaction_scoped_exit`: a clean exit commits, an
exception (or force-rollback) rolls back. -/
theorem transaction_scoped_exit_witness :
    txAexit 1 false none ConnState.init = txCommit 1 ConnState.init
    ∧ txAexit 1 false (some "RuntimeError") ConnState.init = txRollback 1 ConnState.init
    ∧ txAexit 1 true none ConnState.init = txRollback 1 ConnState.init := by
  refine ⟨?_, ?_, ?_⟩
  · exact ((transaction_scoped_exit 1 false none ConnState.init).1 ⟨rfl, rfl⟩).2
  · exact ((transaction_scoped_exit 1 false (some "RuntimeError") ConnState.init).2.1
      (Or.inl (by simp))).2
  · exact ((transaction_scoped_exit 1 true none ConnState.init).2.1 (Or.inr rfl)).2

/-- C3: for every facade connection, `__aenter__` increments the counter
and calls the backend `acquire` exactly on the 0-to-1 transition,
`__aexit__` decrements it and calls `release` exactly on the transition
back to 0, and along every balanced sequence of enter/exit calls the
invariant holds at every point: the counter is 0 iff the raw backend
connection is not held. -/
theorem connection_refcount (s : ConnState) :
    ((connEnter s).counter = s.counter + 1
      ∧ ((connEnter s).events = s.events ++ [BEvent.acquire] ↔ s.counter = 0)
      ∧ (s.counter ≠ 0 → (connEnter s).events = s.events))
    ∧ ((connExit s).counter = s.counter - 1
      ∧ ((connExit s).events = s.events ++ [BEvent.release] ↔ s.counter = 1)
      ∧ (s.counter ≠ 1 → (connExit s).events = s.events))
    ∧ (∀ l p q, ConnInv s → balancedFrom s.counter l = true → l = p ++ q →
        ConnInv (runConn s p)) := by
  refine ⟨⟨connEnter_counter s, ?_, ?_⟩, ⟨connExit_counter s, ?_, ?_⟩, ?_⟩
  · rw [connEnter_events]
    by_cases h : s.counter = 0
    · simp [h]
    · simp [h]
  · intro h
    rw [connEnter_events, if_neg h, List.append_nil]
  · rw [connExit_events]
    by_cases h : s.counter = 1
    · simp [h]
    · simp [h]
  · intro h
    rw [connExit_events, if_neg h, List.append_nil]
  · intro l p q hinv hbal hl
    subst hl
    exact connInv_runConn p s hinv (balancedFrom_of_append p s.counter q hbal)

/-- Witness for `connection_refcount`: the invariant along the prefix
`[enter, enter, exit]` of a balanced sequence starting from a fresh
connection. -/
theorem connection_refcount_witness :
    ConnInv (runConn ConnState.init [ConnOp.enter, ConnOp.enter, ConnOp.exit]) := by
  exact (connection_refcount ConnState.init).2.2
    [ConnOp.enter, ConnOp.enter, ConnOp.exit, ConnOp.exit]
    [ConnOp.enter, ConnOp.enter, ConnOp.exit] [ConnOp.exit]
    ⟨by decide, by decide⟩ (by decide) rfl

/-! ## Claim theorems: database lifecycle, execute results, ssl options,
decorator -/

/-- C4: evaluation of `Database.connect`/`disconnect` at the failing
input.  A first `connect()` succeeds, but `connect(); connect()` is NOT
equivalent to `connect()`: the second call fails the
`assert not self.is_connected, "Already connected."` guard, and a second
`disconnect()` likewise fails with "Already disconnected." — contradicting
the idempotence the spec states and `tests/test_databases.py`
(`test_connect_and_disconnect`) exercises. -/
theorem database_connect_not_idempotent :
    dbConnect (dbInit false) =
      .ok { forceRollback := false, isConnected := true, poolRunning := true,
            events := [DbEvent.backendConnect] }
    ∧ (dbConnect (dbInit false)).bind dbConnect = .error "Already connected."
    ∧ ((dbConnect (dbInit false)).bind dbDisconnect).bind dbDisconnect =
        .error "Already disconnected."
    ∧ (dbConnect (dbInit true)).bind dbConnect = .error "Already connected."
    ∧ (dbConnect (dbInit true)).bind dbDisconnect =
        .ok { forceRollback := true, isConnected := false, poolRunning := false,
              events := [DbEvent.backendConnect, DbEvent.globalBegin,
                DbEvent.globalRollback, DbEvent.backendDisconnect] } := by
  refine ⟨rfl, rfl, rfl, rfl, rfl⟩

/-- C9: evaluation of the `ssl` URL-option handling.  All four backends
turn `ssl=true|false` (case-insensitively) into a boolean, and the
asyncpg backend passes any other string through; but the `PostgresBackend`
of `postgres.py` indexes the two-entry dict directly, so `ssl=verify-full`
raises `KeyError` there — contradicting the claim and the repository's own
test `test_postgres_ssl_verify_full`. -/
theorem ssl_option_handling :
    postgresSslKwarg "verify-full" = .error (.keyError "verify-full")
    ∧ asyncpgSslKwarg "verify-full" = .kstr "verify-full"
    ∧ postgresSslKwarg "true" = .ok (.kbool true)
    ∧ postgresSslKwarg "TRUE" = .ok (.kbool true)
    ∧ postgresSslKwarg "False" = .ok (.kbool false)
    ∧ mysqlSslKwarg "true" = .ok (.kbool true)
    ∧ mysqlSslKwarg "verify-full" = .error (.keyError "verify-full")
    ∧ aiopgSslKwarg "FALSE" = .ok (.kbool false)
    ∧ aiopgSslKwarg "verify-full" = .error (.keyError "verify-full")
    ∧ asyncpgSslKwarg "True" = .kbool true
    ∧ asyncpgSslKwarg "false" = .kbool false := by
  refine ⟨by decide, by decide, by decide, by decide, by decide, by decide, by decide,
    by decide, by decide, by decide, by decide⟩

/-- C6 counterexample: the claim says `execute` returns the cursor's
`lastrowid` on MySQL and SQLite, but for an insert whose cursor reports
`lastrowid == 0` (e.g. a MySQL table without AUTO_INCREMENT) the code
returns `rowcount` instead: at `lastrowid = 0, rowcount = 1` both
backends return 1, not the lastrowid 0. -/
theorem execute_lastrowid_counterexample :
    mysqlExecute { lastrowid := 0, rowcount := 1 } = 1
    ∧ sqliteExecute { lastrowid := 0, rowcount := 1 } = 1
    ∧ mysqlExecute { lastrowid := 0, rowcount := 1 } ≠
        Cursor.lastrowid { lastrowid := 0, rowcount := 1 }
    ∧ sqliteExecute { lastrowid := 0, rowcount := 1 } ≠
        Cursor.lastrowid { lastrowid := 0, rowcount := 1 } := by
  refine ⟨rfl, rfl, by decide, by decide⟩

/-- C6 as amended: MySQL and SQLite `execute` return the cursor's
`lastrowid` when it is nonzero and `rowcount` when `lastrowid == 0`; the
aiopg backend returns `cursor.lastrowid` unconditionally (always 0 in that
driver); the asyncpg backend returns the driver `fetchval` result, i.e.
the first column of the first RETURNING row. -/
theorem execute_return_values (cur : Cursor) (v : PyVal) (cols : List PyVal)
    (rest : List (List PyVal)) :
    (cur.lastrowid ≠ 0 →
      mysqlExecute cur = cur.lastrowid ∧ sqliteExecute cur = cur.lastrowid)
    ∧ (cur.lastrowid = 0 →
      mysqlExecute cur = cur.rowcount ∧ sqliteExecute cur = cur.rowcount)
    ∧ aiopgExecute cur = cur.lastrowid
    ∧ asyncpgExecute ((v :: cols) :: rest) = some v
    ∧ asyncpgExecute [] = none := by
  refine ⟨?_, ?_, rfl, rfl, rfl⟩
  · intro h
    constructor <;> simp [mysqlExecute, sqliteExecute, h]
  · intro h
    constructor <;> simp [mysqlExecute, sqliteExecute, h]

/-- Witness for `execute_return_values` at concrete cursors. -/
theorem execute_return_values_witness :
    mysqlExecute { lastrowid := 5, rowcount := 1 } = 5
    ∧ sqliteExecute { lastrowid := 0, rowcount := 2 } = 2 := by
  constructor
  · exact ((execute_return_values ⟨5, 1⟩ (.pint 0) [] []).1 (by decide)).1
  · exact ((execute_return_values ⟨0, 2⟩ (.pint 0) [] []).2.1 rfl).2

/-- C8 counterexample: the claim says every invocation of the decorated
callable runs in a fresh facade transaction with one connection
acquisition per concurrent invocation.  But the wrapper built by
`Transaction.__call__` enters the one decorating object (`async with
self`), so invocations 0 and 1 enter the same transaction, and two
overlapping invocations on a fresh connection perform exactly one backend
acquire, not two. -/
theorem transaction_decorator_counterexample :
    wrapperTransactionEntered 7 0 = wrapperTransactionEntered 7 1
    ∧ (txStart 7 (txStart 7 ConnState.init)).events.count BEvent.acquire = 1
    ∧ (txStart 7 (txStart 7 ConnState.init)).events.count BEvent.acquire ≠ 2 := by
  refine ⟨rfl, by decide, by decide⟩

/-- C8 as amended: every invocation of the wrapped callable runs inside
the decorating facade transaction object itself; a complete successful
invocation starts and then commits that same frame, restoring the stack
and the counter; and when two invocations overlap on a fresh connection
only the first acquires the backend connection (the second start finds
the counter nonzero). -/
theorem transaction_decorator_shared (selfId n m : Nat) (s : ConnState) :
    wrapperTransactionEntered selfId n = wrapperTransactionEntered selfId m
    ∧ (∃ s2, wrapperInvoke selfId false none s = some s2
        ∧ s2.stack = s.stack ∧ s2.counter = s.counter)
    ∧ (s.counter = 0 →
      (txStart selfId (txStart selfId s)).events.count BEvent.acquire
        = s.events.count BEvent.acquire + 1) := by
  refine ⟨rfl, ?_, ?_⟩
  · have htop : (txStart selfId s).stack.getLast? = some selfId := by
      rw [txStart_stack]; exact List.getLast?_concat _
    have hw : wrapperInvoke selfId false none s =
        txCommit selfId (txStart selfId s) := rfl
    rw [hw, txCommit_of_top selfId (txStart selfId s) htop]
    refine ⟨_, rfl, ?_, ?_⟩
    · rw [connExit_stack]
      show ((txStart selfId s).stack.dropLast) = s.stack
      rw [txStart_stack, List.dropLast_concat]
    · rw [connExit_counter]
      show (txStart selfId s).counter - 1 = s.counter
      rw [txStart_counter]; omega
  · intro h0
    rw [txStart_events, txStart_events, txStart_counter]
    have h1 : ¬(s.counter + 1 = 0) := by omega
    simp [h0, h1, List.count_append, List.count_cons]

/-- Witness for `transaction_decorator_shared` on a fresh connection. -/
theorem transaction_decorator_shared_witness :
    (∃ s2, wrapperInvoke 3 false none ConnState.init = some s2
        ∧ s2.stack = [] ∧ s2.counter = 0)
    ∧ (txStart 3 (txStart 3 ConnState.init)).events.count BEvent.acquire = 1 := by
  obtain ⟨-, h2, h3⟩ := transaction_decorator_shared 3 0 1 ConnState.init
  exact ⟨h2, h3 rfl⟩

/-! ## Claim theorems: record item access and attribute access -/

/-- The unfolding of `commonGetAttr` as an equation. -/
lemma commonGetAttr_eq (rcd : RecordModel) (s : String) :
    commonGetAttr rcd s =
      match commonGetItem rcd (.name s) with
      | .error (.keyError m) => .error (.attributeError m)
      | r => r := rfl

/-- C7 counterexample: the claim predicts that the result processor is
applied whenever one exists (with the primitive-only restriction reserved
for the PostgreSQL family), but `records.py` applies processors *only*
for the PostgreSQL family: under the `mysql` dialect a record with a
processor still returns the raw value, so the code output differs from
the claimed value. -/
theorem record_processor_counterexample :
    commonGetItem exRecordMySQL (.name "a") = .ok (.pint 1)
    ∧ specResultValue "mysql" exTypeProc.resultProcessor (.pint 1) = .pint 99
    ∧ commonGetItem exRecordMySQL (.name "a") ≠
        .ok (specResultValue "mysql" exTypeProc.resultProcessor (.pint 1)) := by
  refine ⟨by decide, by decide, ?_⟩
  have h1 : commonGetItem exRecordMySQL (.name "a") = .ok (.pint 1) := by decide
  have h2 : specResultValue "mysql" exTypeProc.resultProcessor (.pint 1) = .pint 99 := by
    decide
  intro h
  rw [h1, h2] at h
  exact absurd h (by decide)

/-- C7 as amended: resolution yields `(idx, datatype)` and
`raw = row[idx]`; in the common record the processor is applied exactly
when the dialect is in the PostgreSQL family AND the raw value is an
int/float/str (Python bool included), and in every other case — including
every non-PostgreSQL dialect — the raw value is returned untouched; the
legacy `postgres.py` record applies the processor whenever one exists. -/
theorem record_getitem_processor
    (rcd : RecordModel) (key : RKey) (idx : Nat) (dt : TypeEngine) (raw : PyVal)
    (hne : rcd.columnMap.length ≠ 0)
    (hres : commonResolve rcd key = .ok (idx, dt))
    (hraw : rcd.row[idx]? = some raw) :
    (rcd.dialectName ∈ DIALECT_EXCLUDE →
      (∀ p, dt.resultProcessor = some p → raw.isPrimitive = true →
          commonGetItem rcd key = .ok (p raw))
        ∧ (∀ p, dt.resultProcessor = some p → raw.isPrimitive = false →
          commonGetItem rcd key = .ok raw)
        ∧ (dt.resultProcessor = none → commonGetItem rcd key = .ok raw))
    ∧ (rcd.dialectName ∉ DIALECT_EXCLUDE → commonGetItem rcd key = .ok raw)
    ∧ (∀ (prcd : PGRecordModel) (key2 : RKey) (idx2 : Nat) (dt2 : TypeEngine)
        (raw2 : PyVal),
        prcd.columnMap.length ≠ 0 →
        pgResolve prcd key2 = .ok (idx2, dt2) →
        prcd.row[idx2]? = some raw2 →
        (∀ p, dt2.resultProcessor = some p → pgRecordGetItem prcd key2 = .ok (p raw2))
          ∧ (dt2.resultProcessor = none → pgRecordGetItem prcd key2 = .ok raw2)) := by
  refine ⟨?_, ?_, ?_⟩
  · intro hdial
    refine ⟨?_, ?_, ?_⟩
    · intro p hp hprim
      simp [commonGetItem, hne, hres, hraw, hdial, hp, hprim]
    · intro p hp hprim
      simp [commonGetItem, hne, hres, hraw, hdial, hp, hprim]
    · intro hp
      simp [commonGetItem, hne, hres, hraw, hdial, hp]
  · intro hdial
    simp [commonGetItem, hne, hres, hraw, hdial]
  · intro prcd key2 idx2 dt2 raw2 hne2 hres2 hraw2
    refine ⟨?_, ?_⟩
    · intro p hp
      simp [pgRecordGetItem, hne2, hres2, hraw2, hp]
    · intro hp
      simp [pgRecordGetItem, hne2, hres2, hraw2, hp]

/-- Witness for `record_getitem_processor`: under postgresql a primitive
is decoded and a native value passes through; under mysql even a column
with a processor returns the raw value. -/
theorem record_getitem_processor_witness :
    commonGetItem exRecordPG (.name "a") = .ok (.pint 99)
    ∧ commonGetItem exRecordPG (.name "j") = .ok (.pnative 0)
    ∧ commonGetItem exRecordMySQL (.name "a") = .ok (.pint 1) := by
  refine ⟨?_, ?_, ?_⟩
  · exact ((record_getitem_processor exRecordPG (.name "a") 0 exTypeProc (.pint 2)
      (by decide) rfl rfl).1 (by decide)).1 exProcessor rfl rfl
  · exact ((record_getitem_processor exRecordPG (.name "j") 1 exTypeProc (.pnative 0)
      (by decide) rfl rfl).1 (by decide)).2.1 exProcessor rfl rfl
  · exact (record_getitem_processor exRecordMySQL (.name "a") 0 exTypeProc (.pint 1)
      (by decide) rfl rfl).2.1 (by decide)

/-- C10: for records with a non-empty column map, attribute access
delegates to item access by name (same successful value), an unresolvable
name surfaces as `AttributeError` carrying the same argument, and
attribute access never raises `KeyError`. -/
theorem record_getattr_delegates (rcd : RecordModel) (s : String)
    (hne : rcd.columnMap.length ≠ 0) :
    (∀ v, commonGetAttr rcd s = .ok v ↔ commonGetItem rcd (.name s) = .ok v)
    ∧ (List.lookup s rcd.columnMap = none →
        commonGetAttr rcd s = .error (.attributeError s))
    ∧ (∀ m, commonGetAttr rcd s ≠ .error (.keyError m)) := by
  refine ⟨?_, ?_, ?_⟩
  · intro v
    rw [commonGetAttr_eq]
    cases hg : commonGetItem rcd (.name s) with
    | ok w => simp
    | error e => cases e <;> simp
  · intro hlk
    have h1 : commonGetItem rcd (.name s) = .error (.keyError s) := by
      simp [commonGetItem, hne, commonResolve, hlk]
    rw [commonGetAttr_eq, h1]
  · intro m
    rw [commonGetAttr_eq]
    cases hg : commonGetItem rcd (.name s) with
    | ok w => simp
    | error e => cases e <;> simp

/-- Witness for `record_getattr_delegates` on a concrete record: a
resolvable and an unresolvable attribute name. -/
theorem record_getattr_delegates_witness :
    (commonGetAttr exRecordMySQL "a" = .ok (.pint 1) ↔
      commonGetItem exRecordMySQL (.name "a") = .ok (.pint 1))
    ∧ commonGetAttr exRecordMySQL "zzz" = .error (.attributeError "zzz") := by
  refine ⟨(record_getattr_delegates exRecordMySQL "a" (by decide)).1 _,
    (record_getattr_delegates exRecordMySQL "zzz" (by decide)).2.1 rfl⟩

/-! ## Helper lemmas for the asyncpg placeholder pipeline -/

lemma findIdx?_fst_getElem {V : Type} :
    ∀ (sp : List (String × V)), (sp.map Prod.fst).Nodup →
      ∀ (i : Nat) (hi : i < sp.length),
        sp.findIdx? (fun p => p.1 == sp[i].1) = some i := by
  intro sp
  induction sp with
  | nil => intro _ i hi; cases hi
  | cons a tl ih =>
    intro hnd i hi
    rw [List.map_cons, List.nodup_cons] at hnd
    cases i with
    | zero =>
      simp
    | succ j =>
      have hj : j < tl.length := by
        simpa using hi
      have hk : (a :: tl)[j + 1] = tl[j] := by
        simp
      have hmem : tl[j].1 ∈ tl.map Prod.fst := by
        exact List.mem_map_of_mem Prod.fst (tl.getElem_mem hj)
      have hne : ¬(a.1 == tl[j].1) = true := by
        intro hb
        exact hnd.1 (by rwa [← eq_of_beq hb] at hmem)
      rw [List.findIdx?_cons]
      rw [hk]
      rw [if_neg hne, List.findIdx?_start_succ, ih hnd.2 j hj]
      simp

lemma templateParamKeys_lit (s : String) (rest : List Tok) :
    templateParamKeys (Tok.lit s :: rest) = templateParamKeys rest := rfl

lemma templateParamKeys_param (k : String) (rest : List Tok) :
    templateParamKeys (Tok.param k :: rest) = k :: templateParamKeys rest := rfl

lemma dollarsOf_lit (s : String) (ts : List SqlTok) :
    dollarsOf (SqlTok.lit s :: ts) = dollarsOf ts := rfl

lemma dollarsOf_dollar (i : Nat) (ts : List SqlTok) :
    dollarsOf (SqlTok.dollar i :: ts) = i :: dollarsOf ts := rfl

lemma substTemplate_ok {V : Type} (sp : List (String × V)) :
    ∀ (template : List Tok),
      (∀ k ∈ templateParamKeys template, ∃ i, placeholderIndex sp k = some i) →
      ∃ ts, substTemplate sp template = .ok ts
        ∧ dollarsOf ts =
            (templateParamKeys template).map
              (fun k => (placeholderIndex sp k).getD 0) := by
  intro template
  induction template with
  | nil =>
    intro _
    exact ⟨[], rfl, rfl⟩
  | cons t rest ih =>
    intro h
    cases t with
    | lit s =>
      have hrest : ∀ k ∈ templateParamKeys rest, ∃ i, placeholderIndex sp k = some i := by
        intro k hk
        exact h k (by rw [templateParamKeys_lit]; exact hk)
      obtain ⟨ts, h1, h2⟩ := ih hrest
      refine ⟨.lit s :: ts, ?_, ?_⟩
      · simp [substTemplate, h1]
      · rw [dollarsOf_lit, templateParamKeys_lit, h2]
    | param k =>
      obtain ⟨i, hi⟩ := h k (by rw [templateParamKeys_param]; exact List.mem_cons_self k _)
      have hrest : ∀ k2 ∈ templateParamKeys rest, ∃ i, placeholderIndex sp k2 = some i := by
        intro k2 hk2
        exact h k2 (by rw [templateParamKeys_param]; exact List.mem_cons_of_mem k hk2)
      obtain ⟨ts, h1, h2⟩ := ih hrest
      refine ⟨.dollar i :: ts, ?_, ?_⟩
      · simp [substTemplate, hi, h1]
      · rw [dollarsOf_dollar, templateParamKeys_param, List.map_cons, h2, hi]
        rfl

lemma keys_map_placeholder {V : Type} (sp : List (String × V))
    (hnd : (sp.map Prod.fst).Nodup) :
    (sp.map Prod.fst).map (fun k => (placeholderIndex sp k).getD 0) =
      List.range' 1 sp.length := by
  apply List.ext_getElem
  · simp
  · intro i h1 h2
    have hi : i < sp.length := by simpa using h1
    have hkey : ((sp.map Prod.fst).map (fun k => (placeholderIndex sp k).getD 0))[i]
        = (placeholderIndex sp sp[i].1).getD 0 := by
      simp
    rw [hkey]
    rw [List.getElem_range']
    unfold placeholderIndex
    rw [findIdx?_fst_getElem sp hnd i hi]
    simp [Nat.add_comm]

/-- C5: on the asyncpg numeric-placeholder branch, for every non-DDL
query whose parameter keys are distinct and exactly those mentioned by
the compiled template, the compiled parameter items are sorted by key,
are a permutation of the original items, the parameter at 1-based sorted
position `i` receives placeholder number `i`, the emitted args list holds
at position `i` that parameter's bind-processed value, and the
placeholders appearing in the emitted SQL are exactly `$1 .. $n` (all
distinct), `n` being the length of args. -/
theorem compile_query_asyncpg {V : Type} (c : CompiledQuery V)
    (hnd : (c.params.map Prod.fst).Nodup)
    (htpl : templateParamKeys c.template ~ c.params.map Prod.fst) :
    ∃ ts, compile_query c false = .ok (ts, compileArgs c)
      ∧ List.Sorted (fun (a b : String × V) => a.1 ≤ b.1) (sortedParams c)
      ∧ sortedParams c ~ c.params
      ∧ (compileArgs c).length = c.params.length
      ∧ (∀ (i : Nat) (hi : i < (sortedParams c).length),
          placeholderIndex (sortedParams c) ((sortedParams c)[i].1) = some (i + 1)
          ∧ (compileArgs c)[i]? =
              some (applyBindProcessor c.bindProcessors
                ((sortedParams c)[i].1) ((sortedParams c)[i].2)))
      ∧ dollarsOf ts ~ List.range' 1 c.params.length
      ∧ (dollarsOf ts).Nodup
      ∧ (dollarsOf ts).length = (compileArgs c).length := by
  have hperm : sortedParams c ~ c.params := by
    unfold sortedParams
    exact List.perm_insertionSort _ _
  have hpkeys : (sortedParams c).map Prod.fst ~ c.params.map Prod.fst :=
    hperm.map Prod.fst
  have hndS : ((sortedParams c).map Prod.fst).Nodup :=
    (hpkeys.nodup_iff).mpr hnd
  have hlen : (sortedParams c).length = c.params.length := hperm.length_eq
  have hargslen : (compileArgs c).length = c.params.length := by
    rw [compileArgs, List.length_map, hlen]
  -- every template key has a placeholder
  have hkeys : ∀ k ∈ templateParamKeys c.template, ∃ i,
      placeholderIndex (sortedParams c) k = some i := by
    intro k hk
    have hk2 : k ∈ (sortedParams c).map Prod.fst :=
      (hpkeys.mem_iff).mpr (htpl.mem_iff.mp hk)
    obtain ⟨p, hp, hpk⟩ := List.mem_map.mp hk2
    obtain ⟨j, hj, hpj⟩ := List.getElem_of_mem hp
    refine ⟨j + 1, ?_⟩
    unfold placeholderIndex
    rw [← hpk, ← hpj, findIdx?_fst_getElem (sortedParams c) hndS j hj]
    rfl
  obtain ⟨ts, hts, hdollars⟩ := substTemplate_ok (sortedParams c) c.template hkeys
  have hcompile : compile_query c false = .ok (ts, compileArgs c) := by
    simp [compile_query, hts]
  -- the emitted dollars are a permutation of 1..n
  have hd1 : dollarsOf ts ~
      (c.params.map Prod.fst).map (fun k => (placeholderIndex (sortedParams c) k).getD 0) := by
    rw [hdollars]
    exact htpl.map _
  have hd2 : (c.params.map Prod.fst).map
      (fun k => (placeholderIndex (sortedParams c) k).getD 0) ~
      ((sortedParams c).map Prod.fst).map
        (fun k => (placeholderIndex (sortedParams c) k).getD 0) :=
    (hpkeys.map _).symm
  have hd3 : dollarsOf ts ~ List.range' 1 c.params.length := by
    have := (hd1.trans hd2).trans
      (by rw [keys_map_placeholder (sortedParams c) hndS, hlen])
    exact this
  refine ⟨ts, hcompile,
    List.sorted_insertionSort (fun a b => a.1 ≤ b.1) c.params,
    hperm, hargslen, ?_, hd3, ?_, ?_⟩
  · intro i hi
    constructor
    · unfold placeholderIndex
      rw [findIdx?_fst_getElem (sortedParams c) hndS i hi]
      rfl
    · rw [compileArgs]
      rw [List.getElem?_map]
      rw [List.getElem?_eq_getElem hi]
      rfl
  · refine hd3.nodup_iff.mpr ?_
    exact List.nodup_range' 1 c.params.length
  · rw [hd3.length_eq, List.length_range', hargslen]

/-- Witness for `compile_query_asyncpg` on `exCompiled`. -/
theorem compile_query_asyncpg_witness :
    (exCompiled.params.map Prod.fst).Nodup
    ∧ (templateParamKeys exCompiled.template ~ exCompiled.params.map Prod.fst)
    ∧ ∃ ts, compile_query exCompiled false = .ok (ts, compileArgs exCompiled)
        ∧ dollarsOf ts ~ List.range' 1 exCompiled.params.length
        ∧ (dollarsOf ts).Nodup := by
  have h1 : (exCompiled.params.map Prod.fst).Nodup := by decide
  have h2 : templateParamKeys exCompiled.template ~ exCompiled.params.map Prod.fst := by
    decide
  obtain ⟨ts, ha, -, -, -, -, hd, hn, -⟩ := compile_query_asyncpg exCompiled h1 h2
  exact ⟨h1, h2, ts, ha, hd, hn⟩

end Databases

